import Mathlib

/-!
A verification development for the plate-gate-controller repository.

The Python sources under `app/` are shallowly embedded as executable Lean
definitions:

* `app/rules.py` — `RuleSets` and `decide` (rule-set lookup with a fixed
  precedence on the uppercased plate).
* `app/pipeline.py` — the frame-decision pipeline: exact-plate debounce
  (`_should_emit`), unreadable dedup (`_unreadable_duplicate`,
  `_record_unreadable`, `_should_emit_unreadable`), the direction estimator
  (`_estimate_direction`, `_update_direction_state`), ROI containment
  (`_point_in_roi`, rectangle mode), dispatch (`_act`), and the per-frame
  candidate scan (`process_frame`).
* `app/ocr.py` — `PlateOCR.read_text` and `PlateOCR._clean`.

Modelling conventions:

* Python `float` timestamps and coordinates are modelled as `ℚ` (exact
  arithmetic; the code only adds/subtracts/compares).
* Python `dict` is modelled as an association list: insertion appends,
  update-in-place keeps the entry position, and iteration order is entry
  order (CPython guarantees insertion order).
* External adapters (detector, the tesseract call inside OCR, the ROI pixel
  hashes) are oracles passed as parameters; an adapter that raises is an
  oracle returning `Except.error` / `none`.
* `time.time()` is modelled by one timestamp `now` per `process_frame` call.
* Effects on the outside world (Telegram notification, gate, alarm) are
  collected in an effect trace instead of performing I/O.
-/

namespace PlateGate

/-- ASCII uppercasing of one character, the model of Python `str.upper` on
the character level (plates are ASCII alphanumeric). -/
def pyUpperChar (c : Char) : Char :=
  if 97 ≤ c.toNat ∧ c.toNat ≤ 122 then Char.ofNat (c.toNat - 32) else c

/-- Model of Python `str.upper` (ASCII range, which is all the code uses). -/
def pyUpper (s : String) : String :=
  ⟨s.data.map pyUpperChar⟩

/-- Python whitespace characters stripped by `str.strip`. -/
def isPySpace (c : Char) : Bool :=
  c = ' ' ∨ c = '\t' ∨ c = '\n' ∨ c = '\r' ∨ c = '\x0b' ∨ c = '\x0c'

/-- Model of Python `str.strip` (drop leading and trailing whitespace). -/
def pyStrip (s : String) : String :=
  ⟨((s.data.dropWhile isPySpace).reverse.dropWhile isPySpace).reverse⟩

/-- `app/rules.py` `RuleSets`: three plate sets and a watch mapping
(plate → optional group), modelled as lists with decidable membership. -/
structure RuleSets where
  allowed : List String
  denied : List String
  watchlist : List (String × Option String)
  ignored : List String
deriving DecidableEq

/-- `app/rules.py` `decide`: classify `plate` against the rule sets.
The plate is uppercased (`(plate or "").upper()`; the `or ""` guards a
Python `None`, which the `String` type excludes here), the empty string is
`unknown`, and membership is checked in the order
ignored, denied, allowed, watchlist. -/
def decide (rules : RuleSets) (plate : String) : String :=
  let plate_u := pyUpper plate
  if plate_u = "" then "unknown"
  else if plate_u ∈ rules.ignored then "ignore"
  else if plate_u ∈ rules.denied then "deny"
  else if plate_u ∈ rules.allowed then "allow"
  else if (rules.watchlist.lookup plate_u).isSome then "watch"
  else "unknown"

/-! ## Python dict as an association list -/

/-- Python dict assignment `m[k] = v`: update in place when the key exists
(keeping the entry's position), append a new entry otherwise. -/
def dictInsert {α β : Type} [BEq α] (m : List (α × β)) (k : α) (v : β) :
    List (α × β) :=
  if (m.lookup k).isSome then
    m.map (fun p => if p.1 == k then (k, v) else p)
  else m ++ [(k, v)]

/-! ## Pipeline configuration and state (`app/pipeline.py`) -/

/-- Constructor arguments of `Pipeline.__init__` that the embedded logic
reads.  `directionAxis` holds the value of `self.direction_axis` (normalized
to "x"/"y" at init), `directionMinDisp` holds `max(0, int(...))` as stored
at init.  Only the rectangle ROI mode is embedded; the polygon mode
delegates containment to `cv2.pointPolygonTest` (an external library call)
and is not exercised by any claim. -/
structure PipelineConfig where
  rules : RuleSets
  debounceSec : ℚ
  notifyUnreadable : Bool
  unreadableDebounceSec : ℚ
  unreadableDhashThreshold : Int
  unreadableGlobalCooldownSec : ℚ
  suppressActuators : Bool
  directionEnabled : Bool
  directionAxis : String
  directionInvert : Bool
  directionMinDisp : Int
  directionGateLine : Option ℚ
  roiEnabled : Bool
  roiRect : ℚ × ℚ × ℚ × ℚ
  ocrEnabled : Bool
deriving DecidableEq

/-- The mutable per-pipeline state of `app/pipeline.py`. -/
structure PipelineState where
  lastSeen : List (String × ℚ)
  lastUnreadableSeen : List (String × ℚ)
  unreadableMemory : List (Nat × ℚ)
  lastUnreadableEmitTs : ℚ
  lastCenter : Option (ℚ × ℚ)
  lastSide : Option Nat
deriving DecidableEq

/-- `Pipeline._should_emit`: the readable-plate debounce.  Returns whether
to emit together with the updated `last_seen` map. -/
def shouldEmit (debounceSec : ℚ) (lastSeen : List (String × ℚ))
    (plate : String) (now : ℚ) : Bool × List (String × ℚ) :=
  match lastSeen.lookup plate with
  | none => (true, dictInsert lastSeen plate now)
  | some last =>
    if now - last > debounceSec then (true, dictInsert lastSeen plate now)
    else (false, lastSeen)

/-! ## Direction estimator (`Pipeline._estimate_direction`) -/

/-- Sign-of-displacement direction (`dir_val = "in" if delta > 0 else "out"`). -/
def deltaDir (delta : ℚ) : String :=
  if delta > 0 then "in" else "out"

/-- Optional inversion (`if self.direction_invert: flip`). -/
def invertDir (invert : Bool) (d : String) : String :=
  if invert then (if d = "in" then "out" else "in") else d

/-- `Pipeline._estimate_direction`: two-sample direction estimate.  When a
gate line and a prior side are known the code distinguishes a side change,
but both that branch and the fallback compute the same
sign-of-displacement value (mirrored here by the identical branches). -/
def estimateDirection (cfg : PipelineConfig) (st : PipelineState)
    (c : ℚ × ℚ) : Option String :=
  if ¬ cfg.directionEnabled then none
  else
    match st.lastCenter with
    | none => none
    | some last =>
      let delta := if cfg.directionAxis = "x" then c.1 - last.1 else c.2 - last.2
      if |delta| < (cfg.directionMinDisp : ℚ) then none
      else
        match cfg.directionGateLine, st.lastSide with
        | some gl, some ls =>
          let curSide : Nat :=
            if (if cfg.directionAxis = "x" then c.1 else c.2) < gl then 0 else 1
          if curSide ≠ ls then some (invertDir cfg.directionInvert (deltaDir delta))
          else some (invertDir cfg.directionInvert (deltaDir delta))
        | _, _ => some (invertDir cfg.directionInvert (deltaDir delta))

/-- `Pipeline._update_direction_state`: record the new center and, when a
gate line is configured, the side of the line the center lies on. -/
def updateDirectionState (cfg : PipelineConfig) (st : PipelineState)
    (c : ℚ × ℚ) : PipelineState :=
  let st1 := { st with lastCenter := some c }
  match cfg.directionGateLine with
  | none => st1
  | some gl =>
    let v := if cfg.directionAxis = "x" then c.1 else c.2
    { st1 with lastSide := some (if v < gl then 0 else 1) }

/-! ## Unreadable dedup (`Pipeline._unreadable_duplicate` and friends) -/

/-- Bit counting by repeated halving, bounded by a fuel argument so that the
recursion is structural (fuel `n` always suffices for input `n`, which at
least halves each step). -/
def popCountAux : Nat → Nat → Nat
  | 0, _ => 0
  | fuel + 1, n => if n = 0 then 0 else n % 2 + popCountAux fuel (n / 2)

/-- Number of set bits, the model of Python `bin(n).count("1")`. -/
def popCount (n : Nat) : Nat :=
  popCountAux n n

/-- `Pipeline._hamming`: Hamming distance between two dHash fingerprints. -/
def hamming (a b : Nat) : Nat :=
  popCount (a ^^^ b)

/-- Retention window used by `_unreadable_duplicate`:
`max(unreadable_debounce_sec, unreadable_global_cooldown_sec) * 3`. -/
def retentionWindow (cfg : PipelineConfig) : ℚ :=
  max cfg.unreadableDebounceSec cfg.unreadableGlobalCooldownSec * 3

/-- The `for h, ts in self._unreadable_memory.items()` loop of
`_unreadable_duplicate`: entries older than the window are collected for
deletion and skipped; the scan breaks at the first entry within the
threshold.  Returns the duplicate flag and the keys collected before the
break. -/
def scanMemory (thr : Nat) (window now : ℚ) (d : Nat) :
    List (Nat × ℚ) → Bool × List Nat
  | [] => (false, [])
  | (h, ts) :: rest =>
    if now - ts > window then
      let r := scanMemory thr window now d rest
      (r.1, h :: r.2)
    else if hamming d h ≤ thr then (true, [])
    else scanMemory thr window now d rest

/-- `Pipeline._unreadable_duplicate`: global cooldown first, then (when a
dHash is available) a Hamming scan over the unreadable memory with
opportunistic pruning of expired entries.  Returns the duplicate flag and
the updated memory. -/
def unreadableDuplicate (cfg : PipelineConfig) (st : PipelineState)
    (dhash : Option Nat) (now : ℚ) : Bool × List (Nat × ℚ) :=
  if now - st.lastUnreadableEmitTs < cfg.unreadableGlobalCooldownSec then
    (true, st.unreadableMemory)
  else
    match dhash with
    | none => (false, st.unreadableMemory)
    | some d =>
      let thr := (max 0 cfg.unreadableDhashThreshold).toNat
      let r := scanMemory thr (retentionWindow cfg) now d st.unreadableMemory
      (r.1, st.unreadableMemory.filter (fun p => ¬ r.2.contains p.1))

/-- `Pipeline._record_unreadable`: remember the emission time and, when a
dHash is available, record it in the unreadable memory. -/
def recordUnreadable (st : PipelineState) (dhash : Option Nat) (now : ℚ) :
    PipelineState :=
  let st1 := { st with lastUnreadableEmitTs := now }
  match dhash with
  | none => st1
  | some d =>
    { st1 with unreadableMemory := dictInsert st1.unreadableMemory d now }

/-- Eviction inside `Pipeline._should_emit_unreadable`: when the exact-hash
map exceeds 500 entries, the 50 oldest (by timestamp, ties by entry order —
Python's `sorted` is stable) are dropped. -/
def pruneOldest (m : List (String × ℚ)) : List (String × ℚ) :=
  if m.length > 500 then
    let dropKeys := ((m.mergeSort (fun a b => a.2 ≤ b.2)).take 50).map Prod.fst
    m.filter (fun p => ¬ dropKeys.contains p.1)
  else m

/-- `Pipeline._should_emit_unreadable`: exact-content-hash debounce for
unreadable regions, with the high-water-mark eviction above. -/
def shouldEmitUnreadable (udeb : ℚ) (m : List (String × ℚ)) (h : String)
    (now : ℚ) : Bool × List (String × ℚ) :=
  match m.lookup h with
  | none => (true, pruneOldest (dictInsert m h now))
  | some last =>
    if now - last > udeb then (true, pruneOldest (dictInsert m h now))
    else (false, m)

/-! ## C8: boundedness of the unreadable memory -/

/-- The pipeline state right after `Pipeline.__init__` (empty maps, zero
last-emission time, no tracking state). -/
def initState : PipelineState :=
  ⟨[], [], [], 0, none, none⟩

/-! ## OCR (`app/ocr.py`) -/

/-- `PlateOCR._clean`: uppercase, keep only A–Z and 0–9, then resolve the
common O/0 and I/1 OCR confusions (each substitution only fires when the
confused character occurs and its digit counterpart does not). -/
def cleanText (text : String) : String :=
  let t1 := pyUpper text
  let t2 : String := ⟨t1.data.filter (fun c =>
    ('A' ≤ c ∧ c ≤ 'Z') ∨ ('0' ≤ c ∧ c ≤ '9'))⟩
  let t3 := if t2.data.count 'O' ≠ 0 ∧ t2.data.count '0' = 0 then
    ⟨t2.data.map (fun c => if c = 'O' then '0' else c)⟩ else t2
  let t4 : String := if t3.data.count 'I' ≠ 0 ∧ t3.data.count '1' = 0 then
    ⟨t3.data.map (fun c => if c = 'I' then '1' else c)⟩ else t3
  t4

/-- A detector bounding box (x, y, w, h). -/
abbrev Box := Int × Int × Int × Int

/-- `PlateOCR.read_text`: `None` when OCR is disabled; the external call
(preprocessing plus `pytesseract.image_to_string`, wrapped in
`try/except`) is the oracle `ocr`, whose exception is `Except.error`;
its raw text is cleaned, and `cleaned or None` maps the empty string to
`None`. -/
def readText (enabled : Bool) (ocr : Box → Except Unit String) (b : Box) :
    Option String :=
  if ¬ enabled then none
  else
    match ocr b with
    | .error _ => none
    | .ok raw =>
      let cleaned := cleanText raw
      if cleaned = "" then none else some cleaned

/-! ## Frame processing (`Pipeline.process_frame` and `Pipeline._act`) -/

/-- Center of a candidate box: `(x + w / 2.0, y + h / 2.0)`. -/
def boxCenter (b : Box) : ℚ × ℚ :=
  ((b.1 : ℚ) + (b.2.2.1 : ℚ) / 2, (b.2.1 : ℚ) + (b.2.2.2 : ℚ) / 2)

/-- Python `int(...)` on a float: truncation toward zero. -/
def pyInt (q : ℚ) : Int :=
  Int.tdiv q.num (q.den : Int)

/-- `Pipeline._point_in_roi`, rectangle mode: corners normalized by
`sorted`, containment inclusive.  (The polygon mode delegates to
`cv2.pointPolygonTest`, an external call, and is not modelled.) -/
def pointInRoi (cfg : PipelineConfig) (center : ℚ × ℚ) : Bool :=
  if ¬ cfg.roiEnabled then true
  else
    let x := pyInt center.1
    let y := pyInt center.2
    let xlo := min cfg.roiRect.1 cfg.roiRect.2.2.1
    let xhi := max cfg.roiRect.1 cfg.roiRect.2.2.1
    let ylo := min cfg.roiRect.2.1 cfg.roiRect.2.2.2
    let yhi := max cfg.roiRect.2.1 cfg.roiRect.2.2.2
    if xlo ≤ (x : ℚ) ∧ (x : ℚ) ≤ xhi ∧ ylo ≤ (y : ℚ) ∧ (y : ℚ) ≤ yhi then
      true
    else false

/-- One externally visible action of the pipeline. -/
inductive Effect where
  | sendPhoto (caption : String) (group : Option String)
  | openGate (plate : String)
  | alarmTrigger (plate : String) (reason : String)
deriving DecidableEq

/-- `Pipeline._act`: always send the photo notification (watch decisions
routed to the rule's group, others to the default channel); then, unless
actuators are suppressed, open the gate on `allow` or trigger the alarm on
`deny`. -/
def act (cfg : PipelineConfig) (plate decision : String)
    (direction : Option String) : List Effect :=
  let dirText := match direction with
    | some dv => " (" ++ dv ++ ")"
    | none => ""
  let caption := "Plate " ++ plate ++ dirText ++ " -> " ++ pyUpper decision
  let group := (cfg.rules.watchlist.lookup plate).getD none
  let notif := if decision = "watch" then [Effect.sendPhoto caption group]
    else [Effect.sendPhoto caption none]
  if cfg.suppressActuators then notif
  else if decision = "allow" then notif ++ [Effect.openGate plate]
  else if decision = "deny" then notif ++ [Effect.alarmTrigger plate "deny_list"]
  else notif

/-- The `for (x, y, w, h) in boxes` loop of `process_frame`.  The state
carries the first unreadable box with its hash pair (`unreadable_box`,
`unreadable_hash`/`unreadable_dhash`; `none` for the pair models the
`except` arm of the hash computation).  OCR is `read_text(roi) or ""`
followed by `.strip()`; out-of-ROI centers are skipped without a state
update; unreadable candidates update the direction state and continue; the
first readable candidate is classified, debounced, dispatched, and ends
the scan.  `debug_draw` only draws on the frame and is not modelled. -/
def scanBoxes (cfg : PipelineConfig) (ocr : Box → Except Unit String)
    (hashes : Box → Option (String × Nat)) (now : ℚ) :
    PipelineState → Option (Box × Option (String × Nat)) → List Box →
      Option (String × String) × PipelineState × List Effect ×
        Option (Box × Option (String × Nat))
  | st, acc, [] => (none, st, [], acc)
  | st, acc, b :: rest =>
    let plate := pyStrip ((readText cfg.ocrEnabled ocr b).getD "")
    let c := boxCenter b
    let direction := estimateDirection cfg st c
    if cfg.roiEnabled ∧ ¬ pointInRoi cfg c then
      scanBoxes cfg ocr hashes now st acc rest
    else if plate = "" ∨ plate.length < 4 then
      let acc' := match acc with
        | none => some (b, hashes b)
        | some a => some a
      scanBoxes cfg ocr hashes now (updateDirectionState cfg st c) acc' rest
    else
      let decision := decide cfg.rules plate
      let r := shouldEmit cfg.debounceSec st.lastSeen plate now
      let effs := if r.1 then act cfg plate decision direction else []
      (some (plate, decision),
        updateDirectionState cfg { st with lastSeen := r.2 } c, effs, acc)

/-- The unreadable-notification tail of `process_frame` (lines 196–216):
ROI re-check on the unreadable box center, unreadable dedup, then — if not
suppressed — the exact-hash debounce gate (`unreadable_hash is None or
self._should_emit_unreadable(...)`), the notification, and the recording
of the emission; finally the direction state update. -/
def unreadablePath (cfg : PipelineConfig) (st : PipelineState) (ub : Box)
    (uhashes : Option (String × Nat)) (now : ℚ) :
    PipelineState × List Effect :=
  let uc := boxCenter ub
  if cfg.roiEnabled ∧ ¬ pointInRoi cfg uc then (st, [])
  else
    let direction := estimateDirection cfg st uc
    let dirText := match direction with
      | some dv => " (" ++ dv ++ ")"
      | none => ""
    let caption := "Vehicle detected" ++ dirText ++ ": plate unreadable"
    let udhash := uhashes.map Prod.snd
    let dupRes := unreadableDuplicate cfg st udhash now
    let st1 := { st with unreadableMemory := dupRes.2 }
    if dupRes.1 then (updateDirectionState cfg st1 uc, [])
    else
      match uhashes.map Prod.fst with
      | none =>
        (updateDirectionState cfg (recordUnreadable st1 udhash now) uc,
          [Effect.sendPhoto caption none])
      | some hsh =>
        let r2 := shouldEmitUnreadable cfg.unreadableDebounceSec
          st1.lastUnreadableSeen hsh now
        let st2 := { st1 with lastUnreadableSeen := r2.2 }
        if r2.1 then
          (updateDirectionState cfg (recordUnreadable st2 udhash now) uc,
            [Effect.sendPhoto caption none])
        else (updateDirectionState cfg st2 uc, [])

/-- `Pipeline.process_frame`.  The detector call
(`self.detector.detect(work)`) is not wrapped in any `try/except`, so a
detector exception propagates out of `process_frame`: the detector oracle's
result is an `Except` whose error is returned as is.  The ROI pixel mask
(`_apply_roi_mask`) only preselects what the external detector sees and is
folded into the detector oracle. -/
def processFrame (cfg : PipelineConfig) (st : PipelineState)
    (detectRes : Except Unit (List Box)) (ocr : Box → Except Unit String)
    (hashes : Box → Option (String × Nat)) (now : ℚ) :
    Except Unit (Option (String × String) × PipelineState × List Effect) :=
  match detectRes with
  | .error e => .error e
  | .ok boxes =>
    match scanBoxes cfg ocr hashes now st none boxes with
    | (some pd, st1, effs, _) => .ok (some pd, st1, effs)
    | (none, st1, effs, acc) =>
      match acc, cfg.notifyUnreadable with
      | some (ub, uh), true =>
        match unreadablePath cfg st1 ub uh now with
        | (st2, effs2) => .ok (none, st2, effs ++ effs2)
      | _, _ => .ok (none, st1, effs)

/-- The returned (plate, decision) of a frame, `none` on a detector error. -/
def frameResult
    (r : Except Unit (Option (String × String) × PipelineState × List Effect)) :
    Option (String × String) :=
  match r with
  | .ok t => t.1
  | .error _ => none

/-- The effect trace of a frame, empty on a detector error. -/
def frameEffects
    (r : Except Unit (Option (String × String) × PipelineState × List Effect)) :
    List Effect :=
  match r with
  | .ok t => t.2.2
  | .error _ => []

/-- Whether an `Except` is a success. -/
def isOk {α : Type} (r : Except Unit α) : Bool :=
  match r with
  | .ok _ => true
  | .error _ => false

lemma toNat_ofNat_of_isValidChar (n : Nat) (h : n.isValidChar) :
    (Char.ofNat n).toNat = n := by
  rw [Char.ofNat, dif_pos h]
  rfl

lemma pyUpperChar_idem (c : Char) : pyUpperChar (pyUpperChar c) = pyUpperChar c := by
  unfold pyUpperChar
  by_cases h : 97 ≤ c.toNat ∧ c.toNat ≤ 122
  · rw [if_pos h]
    have hv : Nat.isValidChar (c.toNat - 32) := Or.inl (by omega)
    have ht : (Char.ofNat (c.toNat - 32)).toNat = c.toNat - 32 :=
      toNat_ofNat_of_isValidChar _ hv
    rw [if_neg]
    rw [ht]
    omega
  · rw [if_neg h, if_neg h]

lemma pyUpper_idem (s : String) : pyUpper (pyUpper s) = pyUpper s := by
  unfold pyUpper
  apply congrArg String.mk
  show (s.data.map pyUpperChar).map pyUpperChar = s.data.map pyUpperChar
  rw [List.map_map]
  exact List.map_congr_left (fun c _ => pyUpperChar_idem c)

/-- C10: `decide` is invariant under uppercasing its plate argument. -/
theorem decide_case_insensitive (rules : RuleSets) (plate : String) :
    decide rules plate = decide rules (pyUpper plate) := by
  unfold decide
  rw [pyUpper_idem]

/-- C1 (counterexample): a blank (whitespace-only, non-empty) plate string is
not unconditionally `unknown`: with the blank string itself on the ignored
list, `decide` returns `ignore`. -/
theorem decide_blank_not_unknown :
    decide ⟨[], [], [], [" "]⟩ " " = "ignore" := by decide

/-- C1 (amended): `decide` returns exactly one of the five decisions, the
empty plate is always `unknown`, and on a nonempty (uppercased) plate the
fixed precedence ignored > denied > allowed > watch > unknown governs the
outcome. -/
theorem decide_precedence (rules : RuleSets) (plate : String) :
    (decide rules plate = "allow" ∨ decide rules plate = "deny" ∨
     decide rules plate = "watch" ∨ decide rules plate = "ignore" ∨
     decide rules plate = "unknown") ∧
    (pyUpper plate = "" → decide rules plate = "unknown") ∧
    (pyUpper plate ≠ "" → pyUpper plate ∈ rules.ignored →
      decide rules plate = "ignore") ∧
    (pyUpper plate ≠ "" → pyUpper plate ∉ rules.ignored →
      pyUpper plate ∈ rules.denied → decide rules plate = "deny") ∧
    (pyUpper plate ≠ "" → pyUpper plate ∉ rules.ignored →
      pyUpper plate ∉ rules.denied → pyUpper plate ∈ rules.allowed →
      decide rules plate = "allow") ∧
    (pyUpper plate ≠ "" → pyUpper plate ∉ rules.ignored →
      pyUpper plate ∉ rules.denied → pyUpper plate ∉ rules.allowed →
      (rules.watchlist.lookup (pyUpper plate)).isSome →
      decide rules plate = "watch") ∧
    (pyUpper plate ≠ "" → pyUpper plate ∉ rules.ignored →
      pyUpper plate ∉ rules.denied → pyUpper plate ∉ rules.allowed →
      ¬ (rules.watchlist.lookup (pyUpper plate)).isSome →
      decide rules plate = "unknown") := by
  unfold decide
  refine ⟨?_, ?_, ?_, ?_, ?_, ?_, ?_⟩ <;>
    · intros
      simp only []
      split <;> try tauto
      all_goals (split <;> try tauto)
      all_goals (split <;> try tauto)
      all_goals (split <;> try tauto)
      all_goals (split <;> tauto)

/-- C1 (witness): concrete run of the precedence chain — a lowercase plate
whose uppercase form is on the deny list is denied. -/
theorem decide_precedence_witness :
    decide ⟨[], ["AB12"], [], []⟩ "ab12" = "deny" :=
  (decide_precedence ⟨[], ["AB12"], [], []⟩ "ab12").2.2.2.1
    (by decide) (by decide) (by decide)

lemma lookup_dictInsert_self {α β : Type} [BEq α] [LawfulBEq α]
    (m : List (α × β)) (k : α) (v : β) :
    (dictInsert m k v).lookup k = some v := by
  induction m with
  | nil => simp [dictInsert]
  | cons p t ih =>
    obtain ⟨a, b⟩ := p
    by_cases hp : a = k
    · subst hp
      simp [dictInsert, List.lookup_cons]
    · have hk : (k == a) = false := beq_eq_false_iff_ne.mpr (Ne.symm hp)
      have ha : (a == k) = false := beq_eq_false_iff_ne.mpr hp
      have hsk : ((a, b) :: t).lookup k = t.lookup k := by
        rw [List.lookup_cons, hk]
      by_cases hs : (t.lookup k).isSome
      · have hd : dictInsert ((a, b) :: t) k v =
            (if (a == k) = true then (k, v) else (a, b)) ::
              t.map (fun p => if p.1 == k then (k, v) else p) := by
          simp [dictInsert, hsk, hs]
        have hd' : dictInsert t k v =
            t.map (fun p => if p.1 == k then (k, v) else p) := by
          simp [dictInsert, hs]
        rw [hd, ha]
        simp only [Bool.false_eq_true, if_false]
        rw [List.lookup_cons, hk, ← hd']
        exact ih
      · have hd : dictInsert ((a, b) :: t) k v =
            (a, b) :: (t ++ [(k, v)]) := by
          simp [dictInsert, hsk, hs]
        have hd' : dictInsert t k v = t ++ [(k, v)] := by
          simp [dictInsert, hs]
        rw [hd, List.lookup_cons, hk, ← hd']
        exact ih

/-- C3: the readable-plate debounce returns true and records `now` exactly
when no prior record exists or the prior record is older than
`debounce_sec`; two checks for the same plate within the window yield
(true, false); once more than the window has elapsed since the recorded
emission the check yields true again. -/
theorem shouldEmit_debounce (deb : ℚ) (m : List (String × ℚ)) (p : String)
    (now t2 : ℚ) :
    ((m.lookup p = none ∨ ∃ last, m.lookup p = some last ∧ now - last > deb) →
      (shouldEmit deb m p now).1 = true ∧
      (shouldEmit deb m p now).2.lookup p = some now) ∧
    ((∃ last, m.lookup p = some last ∧ ¬ now - last > deb) →
      shouldEmit deb m p now = (false, m)) ∧
    (m.lookup p = none → t2 - now ≤ deb →
      (shouldEmit deb m p now).1 = true ∧
      (shouldEmit deb (shouldEmit deb m p now).2 p t2).1 = false) ∧
    (∀ m2 : List (String × ℚ), m2.lookup p = some now → t2 - now > deb →
      (shouldEmit deb m2 p t2).1 = true) := by
  refine ⟨?_, ?_, ?_, ?_⟩
  · rintro (hn | ⟨last, hl, hgt⟩)
    · simp [shouldEmit, hn, lookup_dictInsert_self]
    · simp [shouldEmit, hl, hgt, lookup_dictInsert_self]
  · rintro ⟨last, hl, hle⟩
    simp [shouldEmit, hl, hle]
  · intro hn hle
    have h1 : shouldEmit deb m p now = (true, dictInsert m p now) := by
      simp [shouldEmit, hn]
    refine ⟨by simp [h1], ?_⟩
    rw [h1]
    have h2 : (dictInsert m p now).lookup p = some now :=
      lookup_dictInsert_self m p now
    simp only [shouldEmit, h2]
    rw [if_neg (by linarith)]
  · intro m2 hl hgt
    simp [shouldEmit, hl, hgt]

/-- C3 (witness): plate "ABC123", debounce 15 s, checks at t = 0, 10, 20. -/
theorem shouldEmit_debounce_witness :
    (shouldEmit 15 [] "ABC123" 0).1 = true ∧
    (shouldEmit 15 (shouldEmit 15 [] "ABC123" 0).2 "ABC123" 10).1 = false ∧
    (shouldEmit 15 [("ABC123", 0)] "ABC123" 20).1 = true := by
  refine ⟨?_, ?_, ?_⟩
  · exact ((shouldEmit_debounce 15 [] "ABC123" 0 10).2.2.1 (by decide)
      (by norm_num)).1
  · exact ((shouldEmit_debounce 15 [] "ABC123" 0 10).2.2.1 (by decide)
      (by norm_num)).2
  · exact (shouldEmit_debounce 15 [] "ABC123" 0 20).2.2.2 [("ABC123", 0)]
      (by decide) (by norm_num)

/-- C9: in tracking state, a displacement below `direction_min_disp` along
the active axis reports no direction; a +30 displacement on the y axis with
min displacement at most 30 reports "in" without inversion and "out" with
inversion (the gate-line branch computes the same value, so no side change
can override this). -/
theorem estimateDirection_spec (cfg : PipelineConfig) (st : PipelineState)
    (c last : ℚ × ℚ) (hlast : st.lastCenter = some last) :
    ((|if cfg.directionAxis = "x" then c.1 - last.1 else c.2 - last.2| <
        (cfg.directionMinDisp : ℚ)) → estimateDirection cfg st c = none) ∧
    (cfg.directionEnabled = true → cfg.directionAxis = "y" →
      c.2 - last.2 = 30 → cfg.directionMinDisp ≤ 30 →
      estimateDirection cfg st c =
        some (if cfg.directionInvert then "out" else "in")) := by
  constructor
  · intro hsmall
    unfold estimateDirection
    split
    · rfl
    · rw [hlast]
      simp only [hsmall, if_pos]
  · intro hen hax hdisp hmin
    have hbig : (|(30 : ℚ)| < (cfg.directionMinDisp : ℚ)) = False := by
      apply eq_false
      rw [abs_of_pos (by norm_num)]
      exact not_lt.mpr (by exact_mod_cast hmin)
    have hdir : invertDir cfg.directionInvert (deltaDir 30) =
        if cfg.directionInvert then "out" else "in" := by
      by_cases hi : cfg.directionInvert = true <;>
        norm_num [invertDir, deltaDir, hi]
    have hyx : ("y" = "x") = False := by
      apply eq_false; decide
    simp only [estimateDirection, hlast, hen, hax, hyx, if_false,
      not_true_eq_false, hdisp, hbig, hdir]
    rcases cfg.directionGateLine with _ | gl <;>
      rcases st.lastSide with _ | ls <;> simp

/-- C9 (witness): centers (0,0) → (0,30) on the y axis, min displacement 20,
no inversion: direction "in"; and (0,0) → (0,5): no direction. -/
theorem estimateDirection_spec_witness :
    estimateDirection
      ⟨⟨[], [], [], []⟩, 15, false, 10, 6, 8, false, true, "y", false, 20,
        none, false, (0, 0, 0, 0), true⟩
      ⟨[], [], [], 0, some (0, 0), none⟩ (0, 30) = some "in" ∧
    estimateDirection
      ⟨⟨[], [], [], []⟩, 15, false, 10, 6, 8, false, true, "y", false, 20,
        none, false, (0, 0, 0, 0), true⟩
      ⟨[], [], [], 0, some (0, 0), none⟩ (0, 5) = none := by
  constructor
  · have h := (estimateDirection_spec
      ⟨⟨[], [], [], []⟩, 15, false, 10, 6, 8, false, true, "y", false, 20,
        none, false, (0, 0, 0, 0), true⟩
      ⟨[], [], [], 0, some (0, 0), none⟩ (0, 30) (0, 0) rfl).2
      rfl rfl (by norm_num) (by norm_num)
    simpa using h
  · have h := (estimateDirection_spec
      ⟨⟨[], [], [], []⟩, 15, false, 10, 6, 8, false, true, "y", false, 20,
        none, false, (0, 0, 0, 0), true⟩
      ⟨[], [], [], 0, some (0, 0), none⟩ (0, 5) (0, 0) rfl).1
    apply h
    show |(5 : ℚ) - 0| < ((20 : Int) : ℚ)
    norm_num

lemma scanMemory_fst_iff (thr : Nat) (w now : ℚ) (d : Nat)
    (mem : List (Nat × ℚ)) :
    (scanMemory thr w now d mem).1 = true ↔
      ∃ h ts, (h, ts) ∈ mem ∧ ¬ now - ts > w ∧ hamming d h ≤ thr := by
  induction mem with
  | nil => simp [scanMemory]
  | cons p rest ih =>
    obtain ⟨h, ts⟩ := p
    by_cases hexp : now - ts > w
    · simp only [scanMemory, if_pos hexp]
      rw [ih]
      constructor
      · rintro ⟨h1, ts1, hm, hy, hd⟩
        exact ⟨h1, ts1, List.mem_cons_of_mem _ hm, hy, hd⟩
      · rintro ⟨h1, ts1, hm, hy, hd⟩
        rcases List.mem_cons.mp hm with hm | hm
        · injection hm with e1 e2
          subst e2
          exact absurd hexp hy
        · exact ⟨h1, ts1, hm, hy, hd⟩
    · by_cases hnear : hamming d h ≤ thr
      · simp only [scanMemory, if_neg hexp, if_pos hnear, true_iff]
        exact ⟨h, ts, List.mem_cons_self _ _, hexp, hnear⟩
      · simp only [scanMemory, if_neg hexp, if_neg hnear]
        rw [ih]
        constructor
        · rintro ⟨h1, ts1, hm, hy, hd⟩
          exact ⟨h1, ts1, List.mem_cons_of_mem _ hm, hy, hd⟩
        · rintro ⟨h1, ts1, hm, hy, hd⟩
          rcases List.mem_cons.mp hm with hm | hm
          · injection hm with e1 e2
            subst e1
            exact absurd hd hnear
          · exact ⟨h1, ts1, hm, hy, hd⟩

lemma scanMemory_collects_expired (thr : Nat) (w now : ℚ) (d : Nat)
    (mem : List (Nat × ℚ)) (hfalse : (scanMemory thr w now d mem).1 = false) :
    ∀ h ts, (h, ts) ∈ mem → now - ts > w →
      h ∈ (scanMemory thr w now d mem).2 := by
  induction mem with
  | nil => simp
  | cons p rest ih =>
    obtain ⟨h0, ts0⟩ := p
    intro h ts hm hexp
    by_cases he : now - ts0 > w
    · simp only [scanMemory, if_pos he] at hfalse ⊢
      rcases List.mem_cons.mp hm with hm | hm
      · injection hm with e1 e2
        subst e1
        exact List.mem_cons_self _ _
      · exact List.mem_cons_of_mem _ (ih hfalse h ts hm hexp)
    · by_cases hnear : hamming d h0 ≤ thr
      · simp only [scanMemory, if_neg he, if_pos hnear] at hfalse
        simp at hfalse
      · simp only [scanMemory, if_neg he, if_neg hnear] at hfalse ⊢
        rcases List.mem_cons.mp hm with hm | hm
        · injection hm with e1 e2
          subst e2
          exact absurd hexp he
        · exact ih hfalse h ts hm hexp

lemma unreadableDuplicate_some_eq (cfg : PipelineConfig) (st : PipelineState)
    (d : Nat) (now : ℚ)
    (hcool : ¬ now - st.lastUnreadableEmitTs < cfg.unreadableGlobalCooldownSec) :
    unreadableDuplicate cfg st (some d) now =
      ((scanMemory ((max 0 cfg.unreadableDhashThreshold).toNat)
          (retentionWindow cfg) now d st.unreadableMemory).1,
        st.unreadableMemory.filter (fun p =>
          ¬ (scanMemory ((max 0 cfg.unreadableDhashThreshold).toNat)
              (retentionWindow cfg) now d st.unreadableMemory).2.contains p.1)) := by
  unfold unreadableDuplicate
  rw [if_neg hcool]

/-- C4: once the global cooldown has elapsed, a candidate dHash within
Hamming distance `unreadable_dhash_threshold` of some remembered,
non-expired hash is flagged a duplicate; one farther than the threshold
from every non-expired remembered hash is not; and recording an emission
stores the hash with its timestamp and updates the emission time. -/
theorem unreadableDuplicate_spec (cfg : PipelineConfig) (st : PipelineState)
    (d : Nat) (now : ℚ)
    (hcool : ¬ now - st.lastUnreadableEmitTs < cfg.unreadableGlobalCooldownSec)
    (hthr : 0 ≤ cfg.unreadableDhashThreshold) :
    ((∃ h ts, (h, ts) ∈ st.unreadableMemory ∧
        ¬ now - ts > retentionWindow cfg ∧
        hamming d h ≤ cfg.unreadableDhashThreshold.toNat) →
      (unreadableDuplicate cfg st (some d) now).1 = true) ∧
    ((∀ h ts, (h, ts) ∈ st.unreadableMemory →
        ¬ now - ts > retentionWindow cfg →
        cfg.unreadableDhashThreshold.toNat < hamming d h) →
      (unreadableDuplicate cfg st (some d) now).1 = false) ∧
    ((recordUnreadable st (some d) now).unreadableMemory.lookup d = some now ∧
      (recordUnreadable st (some d) now).lastUnreadableEmitTs = now) := by
  have hmax : (max 0 cfg.unreadableDhashThreshold).toNat =
      cfg.unreadableDhashThreshold.toNat := by
    rw [max_eq_right hthr]
  refine ⟨?_, ?_, ?_, ?_⟩
  · rintro ⟨h, ts, hm, hy, hd⟩
    rw [unreadableDuplicate_some_eq cfg st d now hcool]
    simp only [hmax]
    exact (scanMemory_fst_iff _ _ _ _ _).mpr ⟨h, ts, hm, hy, hd⟩
  · intro hall
    rw [unreadableDuplicate_some_eq cfg st d now hcool]
    simp only [hmax]
    have hne : ¬ (scanMemory cfg.unreadableDhashThreshold.toNat
        (retentionWindow cfg) now d st.unreadableMemory).1 = true := by
      rw [scanMemory_fst_iff]
      rintro ⟨h, ts, hm, hy, hd⟩
      exact absurd hd (not_le.mpr (hall h ts hm hy))
    simpa using hne
  · simp only [recordUnreadable]
    exact lookup_dictInsert_self _ _ _
  · rfl

/-- C4 (witness): cooldown elapsed, memory holds hash 0 recorded at t = 0;
at t = 1 the candidate hash 3 (distance 2 ≤ threshold 6) is a duplicate. -/
theorem unreadableDuplicate_spec_witness :
    (unreadableDuplicate
      ⟨⟨[], [], [], []⟩, 15, true, 10, 6, 8, false, false, "y", false, 20,
        none, false, (0, 0, 0, 0), true⟩
      ⟨[], [], [(0, 0)], -100, none, none⟩ (some 3) 1).1 = true :=
  (unreadableDuplicate_spec
    ⟨⟨[], [], [], []⟩, 15, true, 10, 6, 8, false, false, "y", false, 20,
      none, false, (0, 0, 0, 0), true⟩
    ⟨[], [], [(0, 0)], -100, none, none⟩ 3 1
    (by norm_num) (by norm_num)).1
    ⟨0, 0, by decide, by norm_num [retentionWindow], by decide⟩

/-- C5: within the global cooldown every unreadable candidate is suppressed
regardless of its hash; outside the cooldown a candidate with no computable
hash is not a duplicate (and the memory is untouched), so on the unreadable
notification path of `process_frame` a hashless in-ROI candidate is
notified exactly when the cooldown has elapsed. -/
theorem unreadableDuplicate_cooldown (cfg : PipelineConfig)
    (st : PipelineState) (dhash : Option Nat) (now : ℚ) (ub : Box) :
    (now - st.lastUnreadableEmitTs < cfg.unreadableGlobalCooldownSec →
      unreadableDuplicate cfg st dhash now = (true, st.unreadableMemory)) ∧
    (¬ now - st.lastUnreadableEmitTs < cfg.unreadableGlobalCooldownSec →
      unreadableDuplicate cfg st none now = (false, st.unreadableMemory)) ∧
    (¬ now - st.lastUnreadableEmitTs < cfg.unreadableGlobalCooldownSec →
      ¬ (cfg.roiEnabled ∧ ¬ pointInRoi cfg (boxCenter ub)) →
      ∃ cap, (unreadablePath cfg st ub none now).2 =
        [Effect.sendPhoto cap none]) ∧
    (now - st.lastUnreadableEmitTs < cfg.unreadableGlobalCooldownSec →
      (unreadablePath cfg st ub none now).2 = []) := by
  have hdup : ∀ hcool : ¬ now - st.lastUnreadableEmitTs <
      cfg.unreadableGlobalCooldownSec,
      unreadableDuplicate cfg st none now = (false, st.unreadableMemory) := by
    intro hcool
    unfold unreadableDuplicate
    rw [if_neg hcool]
  refine ⟨?_, hdup, ?_, ?_⟩
  · intro hcool
    unfold unreadableDuplicate
    rw [if_pos hcool]
  · intro hcool hroi
    simp only [unreadablePath]
    rw [if_neg hroi]
    simp only [Option.map_none', hdup hcool]
    exact ⟨_, rfl⟩
  · intro hcool
    by_cases hroi : cfg.roiEnabled ∧ ¬ pointInRoi cfg (boxCenter ub)
    · simp only [unreadablePath]
      rw [if_pos hroi]
    · simp only [unreadablePath]
      rw [if_neg hroi]
      simp only [Option.map_none']
      have h1 : unreadableDuplicate cfg st none now =
          (true, st.unreadableMemory) := by
        unfold unreadableDuplicate
        rw [if_pos hcool]
      rw [h1]
      simp

/-- C5 (witness): last emission at t = 0, cooldown 8 s: at t = 5 even a
far-away hash is suppressed; at t = 9 a hashless candidate is not a
duplicate, and its notification goes out. -/
theorem unreadableDuplicate_cooldown_witness :
    unreadableDuplicate
      ⟨⟨[], [], [], []⟩, 15, true, 10, 6, 8, false, false, "y", false, 20,
        none, false, (0, 0, 0, 0), true⟩
      ⟨[], [], [(0, 0)], 0, none, none⟩ (some 255) 5 = (true, [(0, 0)]) ∧
    unreadableDuplicate
      ⟨⟨[], [], [], []⟩, 15, true, 10, 6, 8, false, false, "y", false, 20,
        none, false, (0, 0, 0, 0), true⟩
      ⟨[], [], [(0, 0)], 0, none, none⟩ none 9 = (false, [(0, 0)]) ∧
    (unreadablePath
      ⟨⟨[], [], [], []⟩, 15, true, 10, 6, 8, false, false, "y", false, 20,
        none, false, (0, 0, 0, 0), true⟩
      ⟨[], [], [(0, 0)], 0, none, none⟩
      ((0 : Int), (0 : Int), (10 : Int), (10 : Int)) none 9).2.length = 1 := by
  refine ⟨?_, ?_, ?_⟩
  · exact (unreadableDuplicate_cooldown
      ⟨⟨[], [], [], []⟩, 15, true, 10, 6, 8, false, false, "y", false, 20,
        none, false, (0, 0, 0, 0), true⟩
      ⟨[], [], [(0, 0)], 0, none, none⟩ (some 255) 5
      ((0 : Int), (0 : Int), (10 : Int), (10 : Int))).1 (by norm_num)
  · exact (unreadableDuplicate_cooldown
      ⟨⟨[], [], [], []⟩, 15, true, 10, 6, 8, false, false, "y", false, 20,
        none, false, (0, 0, 0, 0), true⟩
      ⟨[], [], [(0, 0)], 0, none, none⟩ none 9
      ((0 : Int), (0 : Int), (10 : Int), (10 : Int))).2.1 (by norm_num)
  · obtain ⟨cap, hc⟩ := (unreadableDuplicate_cooldown
      ⟨⟨[], [], [], []⟩, 15, true, 10, 6, 8, false, false, "y", false, 20,
        none, false, (0, 0, 0, 0), true⟩
      ⟨[], [], [(0, 0)], 0, none, none⟩ none 9
      ((0 : Int), (0 : Int), (10 : Int), (10 : Int))).2.2.1 (by norm_num)
      (by decide)
    rw [hc]
    rfl

lemma lookup_map_pair_none (l : List Nat) (k : Nat) (hk : k ∉ l) :
    (l.map (fun i => (i, (0 : ℚ)))).lookup k = none := by
  induction l with
  | nil => rfl
  | cons a t ih =>
    have hka : (k == a) = false :=
      beq_eq_false_iff_ne.mpr (fun h => hk (h ▸ List.mem_cons_self _ _))
    rw [List.map_cons, List.lookup_cons, hka]
    exact ih (fun h => hk (List.mem_cons_of_mem _ h))

lemma foldRecord_memory (n : Nat) :
    (((List.range n).foldl (fun s d => recordUnreadable s (some d) 0)
        initState)).unreadableMemory =
      (List.range n).map (fun i => (i, (0 : ℚ))) := by
  induction n with
  | zero => rfl
  | succ n ih =>
    rw [List.range_succ, List.foldl_append, List.map_append]
    simp only [List.foldl_cons, List.foldl_nil, List.map_cons, List.map_nil]
    generalize hG : (List.range n).foldl
      (fun s d => recordUnreadable s (some d) 0) initState = G at ih ⊢
    have hlk : G.unreadableMemory.lookup n = none := by
      rw [ih]
      exact lookup_map_pair_none _ _ (by simp [List.mem_range])
    rw [show (recordUnreadable G (some n) 0).unreadableMemory =
        dictInsert G.unreadableMemory n (0 : ℚ) from rfl]
    rw [dictInsert, hlk]
    simp only [Option.isSome_none, Bool.false_eq_true, if_false]
    rw [ih]

/-- C8 (counterexample): the perceptual-hash unreadable memory has no
high-water-mark size cap: recording 600 distinct hashes leaves all 600
entries in the collection (in particular it grows past 500, the only
high-water mark appearing in the module, which applies to the exact-hash
debounce map `last_unreadable_seen` instead). -/
theorem unreadableMemory_no_size_cap :
    (((List.range 600).foldl (fun s d => recordUnreadable s (some d) 0)
        initState)).unreadableMemory.length = 600 := by
  rw [foldRecord_memory]
  simp

/-- C8 (amended): the unreadable memory is bounded only by time-window
pruning: whenever the duplicate scan completes without finding a duplicate,
every entry older than the retention window has been pruned from the
resulting memory. -/
theorem unreadableMemory_pruning (cfg : PipelineConfig) (st : PipelineState)
    (d : Nat) (now : ℚ)
    (hfalse : (unreadableDuplicate cfg st (some d) now).1 = false) :
    ∀ h ts, (h, ts) ∈ (unreadableDuplicate cfg st (some d) now).2 →
      ¬ now - ts > retentionWindow cfg := by
  intro h ts hm hexp
  by_cases hcool : now - st.lastUnreadableEmitTs <
      cfg.unreadableGlobalCooldownSec
  · rw [(unreadableDuplicate_cooldown cfg st (some d) now (0, 0, 0, 0)).1 hcool] at hfalse
    simp at hfalse
  · rw [unreadableDuplicate_some_eq cfg st d now hcool] at hfalse hm
    have hmem := (List.mem_filter.mp hm).1
    have hpred := (List.mem_filter.mp hm).2
    have hin : h ∈ (scanMemory ((max 0 cfg.unreadableDhashThreshold).toNat)
        (retentionWindow cfg) now d st.unreadableMemory).2 :=
      scanMemory_collects_expired _ _ _ _ _ hfalse h ts hmem hexp
    have hcontains : ((scanMemory ((max 0 cfg.unreadableDhashThreshold).toNat)
        (retentionWindow cfg) now d st.unreadableMemory).2.contains h) = true := by
      simpa [List.contains] using List.elem_eq_true_of_mem hin
    exact absurd hcontains (of_decide_eq_true hpred)

/-- C8 (witness for the amended theorem): with retention window 30 and
`now = 100`, the expired entry (5, 10) is pruned by the scan while the
young entry (9, 95) survives, and the surviving entry is inside the
window. -/
theorem unreadableMemory_pruning_witness :
    ((9 : Nat), (95 : ℚ)) ∈ (unreadableDuplicate
      ⟨⟨[], [], [], []⟩, 15, true, 10, 6, 8, false, false, "y", false, 20,
        none, false, (0, 0, 0, 0), true⟩
      ⟨[], [], [(5, 10), (9, 95)], 0, none, none⟩ (some 246) 100).2 ∧
    ¬ (100 : ℚ) - 95 > retentionWindow
      ⟨⟨[], [], [], []⟩, 15, true, 10, 6, 8, false, false, "y", false, 20,
        none, false, (0, 0, 0, 0), true⟩ := by
  have hham : hamming 246 9 = 8 := by decide
  have hdup : unreadableDuplicate
      ⟨⟨[], [], [], []⟩, 15, true, 10, 6, 8, false, false, "y", false, 20,
        none, false, (0, 0, 0, 0), true⟩
      ⟨[], [], [(5, 10), (9, 95)], 0, none, none⟩ (some 246) 100 =
      (false, [(9, 95)]) := by
    simp only [unreadableDuplicate, retentionWindow, scanMemory, hham]
    norm_num
  constructor
  · rw [hdup]
    exact List.mem_singleton.mpr rfl
  · exact unreadableMemory_pruning
      ⟨⟨[], [], [], []⟩, 15, true, 10, 6, 8, false, false, "y", false, 20,
        none, false, (0, 0, 0, 0), true⟩
      ⟨[], [], [(5, 10), (9, 95)], 0, none, none⟩ 246 100
      (by rw [hdup]) 9 95 (by rw [hdup]; exact List.mem_singleton.mpr rfl)

lemma updateDirectionState_lastSeen (cfg : PipelineConfig)
    (st : PipelineState) (c : ℚ × ℚ) :
    (updateDirectionState cfg st c).lastSeen = st.lastSeen := by
  unfold updateDirectionState
  cases cfg.directionGateLine <;> rfl

lemma scanBoxes_cons_skip (cfg : PipelineConfig)
    (ocr : Box → Except Unit String) (hashes : Box → Option (String × Nat))
    (now : ℚ) (st : PipelineState) (acc : Option (Box × Option (String × Nat)))
    (b : Box) (rest : List Box)
    (h : cfg.roiEnabled ∧ ¬ pointInRoi cfg (boxCenter b)) :
    scanBoxes cfg ocr hashes now st acc (b :: rest) =
      scanBoxes cfg ocr hashes now st acc rest := by
  simp only [scanBoxes]
  rw [if_pos h]

lemma scanBoxes_cons_unreadable (cfg : PipelineConfig)
    (ocr : Box → Except Unit String) (hashes : Box → Option (String × Nat))
    (now : ℚ) (st : PipelineState) (acc : Option (Box × Option (String × Nat)))
    (b : Box) (rest : List Box)
    (h1 : ¬ (cfg.roiEnabled ∧ ¬ pointInRoi cfg (boxCenter b)))
    (h2 : pyStrip ((readText cfg.ocrEnabled ocr b).getD "") = "" ∨
      (pyStrip ((readText cfg.ocrEnabled ocr b).getD "")).length < 4) :
    scanBoxes cfg ocr hashes now st acc (b :: rest) =
      scanBoxes cfg ocr hashes now (updateDirectionState cfg st (boxCenter b))
        (match acc with
          | none => some (b, hashes b)
          | some a => some a) rest := by
  simp only [scanBoxes]
  rw [if_neg h1, if_pos h2]

lemma scanBoxes_cons_readable (cfg : PipelineConfig)
    (ocr : Box → Except Unit String) (hashes : Box → Option (String × Nat))
    (now : ℚ) (st : PipelineState) (acc : Option (Box × Option (String × Nat)))
    (b : Box) (rest : List Box)
    (h1 : ¬ (cfg.roiEnabled ∧ ¬ pointInRoi cfg (boxCenter b)))
    (h2 : ¬ (pyStrip ((readText cfg.ocrEnabled ocr b).getD "") = "" ∨
      (pyStrip ((readText cfg.ocrEnabled ocr b).getD "")).length < 4)) :
    scanBoxes cfg ocr hashes now st acc (b :: rest) =
      (some (pyStrip ((readText cfg.ocrEnabled ocr b).getD ""),
          decide cfg.rules (pyStrip ((readText cfg.ocrEnabled ocr b).getD ""))),
        updateDirectionState cfg
          { st with lastSeen := (shouldEmit cfg.debounceSec st.lastSeen
              (pyStrip ((readText cfg.ocrEnabled ocr b).getD "")) now).2 }
          (boxCenter b),
        (if (shouldEmit cfg.debounceSec st.lastSeen
            (pyStrip ((readText cfg.ocrEnabled ocr b).getD "")) now).1 then
          act cfg (pyStrip ((readText cfg.ocrEnabled ocr b).getD ""))
            (decide cfg.rules (pyStrip ((readText cfg.ocrEnabled ocr b).getD "")))
            (estimateDirection cfg st (boxCenter b))
        else []), acc) := by
  simp only [scanBoxes]
  rw [if_neg h1, if_neg h2]

lemma mem_act_openGate (cfg : PipelineConfig) (p d : String)
    (dir : Option String) (q : String) :
    Effect.openGate q ∈ act cfg p d dir ↔
      (cfg.suppressActuators = false ∧ d = "allow" ∧ q = p) := by
  by_cases hs : cfg.suppressActuators = true
  · simp only [act, hs, if_pos]
    constructor
    · intro hmem
      split at hmem <;> simp at hmem
    · rintro ⟨hf, -, -⟩
      simp at hf
  · have hs' : cfg.suppressActuators = false := by simpa using hs
    simp only [act, hs, Bool.false_eq_true, if_false, hs']
    by_cases ha : d = "allow"
    · subst ha
      rw [if_pos rfl]
      constructor
      · intro hmem
        rcases List.mem_append.mp hmem with hm | hm
        · split at hm <;> simp at hm
        · simp at hm
          exact ⟨trivial, rfl, hm⟩
      · rintro ⟨-, -, rfl⟩
        exact List.mem_append.mpr (Or.inr (by simp))
    · rw [if_neg ha]
      by_cases hd : d = "deny"
      · subst hd
        rw [if_pos rfl]
        constructor
        · intro hmem
          rcases List.mem_append.mp hmem with hm | hm
          · split at hm <;> simp at hm
          · simp at hm
        · rintro ⟨-, hall, -⟩
          simp at hall
      · rw [if_neg hd]
        constructor
        · intro hmem
          split at hmem <;> simp at hmem
        · rintro ⟨-, hall, -⟩
          exact absurd hall ha

lemma mem_act_alarm (cfg : PipelineConfig) (p d : String)
    (dir : Option String) (q r : String) :
    Effect.alarmTrigger q r ∈ act cfg p d dir ↔
      (cfg.suppressActuators = false ∧ d = "deny" ∧ q = p ∧ r = "deny_list") := by
  by_cases hs : cfg.suppressActuators = true
  · simp only [act, hs, if_pos]
    constructor
    · intro hmem
      split at hmem <;> simp at hmem
    · rintro ⟨hf, -, -⟩
      simp at hf
  · have hs' : cfg.suppressActuators = false := by simpa using hs
    simp only [act, hs, Bool.false_eq_true, if_false, hs']
    by_cases ha : d = "allow"
    · subst ha
      rw [if_pos rfl]
      constructor
      · intro hmem
        rcases List.mem_append.mp hmem with hm | hm
        · split at hm <;> simp at hm
        · simp at hm
      · rintro ⟨-, hall, -⟩
        simp at hall
    · rw [if_neg ha]
      by_cases hd : d = "deny"
      · subst hd
        rw [if_pos rfl]
        constructor
        · intro hmem
          rcases List.mem_append.mp hmem with hm | hm
          · split at hm <;> simp at hm
          · simp at hm
            exact ⟨trivial, rfl, hm⟩
        · rintro ⟨-, -, rfl, rfl⟩
          exact List.mem_append.mpr (Or.inr (by simp))
      · rw [if_neg hd]
        constructor
        · intro hmem
          split at hmem <;> simp at hmem
        · rintro ⟨-, hden, -⟩
          exact absurd hden hd

lemma act_sendPhoto_exists (cfg : PipelineConfig) (p d : String)
    (dir : Option String) :
    ∃ cap g, Effect.sendPhoto cap g ∈ act cfg p d dir := by
  simp only [act]
  repeat' split
  all_goals
    first
      | exact ⟨_, _, List.mem_singleton.mpr rfl⟩
      | exact ⟨_, _, List.mem_append.mpr (Or.inl (List.mem_singleton.mpr rfl))⟩

lemma unreadablePath_effects (cfg : PipelineConfig) (st : PipelineState)
    (ub : Box) (uh : Option (String × Nat)) (now : ℚ) :
    (unreadablePath cfg st ub uh now).2 = [] ∨
      ∃ cap, (unreadablePath cfg st ub uh now).2 =
        [Effect.sendPhoto cap none] := by
  by_cases hroi : cfg.roiEnabled ∧ ¬ pointInRoi cfg (boxCenter ub)
  · simp only [unreadablePath]
    rw [if_pos hroi]
    exact Or.inl rfl
  · simp only [unreadablePath]
    rw [if_neg hroi]
    by_cases hdup : (unreadableDuplicate cfg st (uh.map Prod.snd) now).1 = true
    · rw [if_pos hdup]
      exact Or.inl rfl
    · rw [if_neg hdup]
      rcases huh : uh.map Prod.fst with _ | hsh
      · simp only [huh]
        exact Or.inr ⟨_, rfl⟩
      · simp only [huh]
        split
        · exact Or.inr ⟨_, rfl⟩
        · exact Or.inl rfl

lemma scanBoxes_spec (cfg : PipelineConfig) (ocr : Box → Except Unit String)
    (hashes : Box → Option (String × Nat)) (now : ℚ) (boxes : List Box) :
    ∀ (st : PipelineState) (acc : Option (Box × Option (String × Nat))),
      ((scanBoxes cfg ocr hashes now st acc boxes).1 = none →
        (scanBoxes cfg ocr hashes now st acc boxes).2.2.1 = []) ∧
      (∀ q dcs, (scanBoxes cfg ocr hashes now st acc boxes).1 = some (q, dcs) →
        dcs = decide cfg.rules q ∧
        ∃ dir, (scanBoxes cfg ocr hashes now st acc boxes).2.2.1 =
          if (shouldEmit cfg.debounceSec st.lastSeen q now).1 then
            act cfg q dcs dir
          else []) := by
  induction boxes with
  | nil =>
    intro st acc
    refine ⟨fun _ => rfl, fun q dcs h => ?_⟩
    simp [scanBoxes] at h
  | cons b rest ih =>
    intro st acc
    by_cases h1 : cfg.roiEnabled ∧ ¬ pointInRoi cfg (boxCenter b)
    · rw [scanBoxes_cons_skip cfg ocr hashes now st acc b rest h1]
      exact ih st acc
    · by_cases h2 : pyStrip ((readText cfg.ocrEnabled ocr b).getD "") = "" ∨
        (pyStrip ((readText cfg.ocrEnabled ocr b).getD "")).length < 4
      · rw [scanBoxes_cons_unreadable cfg ocr hashes now st acc b rest h1 h2]
        have hls := updateDirectionState_lastSeen cfg st (boxCenter b)
        have := ih (updateDirectionState cfg st (boxCenter b))
          (match acc with
            | none => some (b, hashes b)
            | some a => some a)
        rw [hls] at this
        exact this
      · rw [scanBoxes_cons_readable cfg ocr hashes now st acc b rest h1 h2]
        constructor
        · intro h
          exact absurd h (by simp)
        · intro q dcs h
          injection h with h
          injection h with hq hd
          subst hq
          subst hd
          exact ⟨rfl, estimateDirection cfg st (boxCenter b), rfl⟩

/-- C2: in `process_frame`, the gate opens exactly when the returned
decision is `allow`, the alarm fires exactly when it is `deny` — in both
cases only when the per-plate debounce allowed emission and actuators are
not suppressed — and whenever a readable plate passed the debounce a photo
notification is sent (also when actuators are suppressed). -/
theorem processFrame_actuation (cfg : PipelineConfig) (st : PipelineState)
    (boxes : List Box) (ocr : Box → Except Unit String)
    (hashes : Box → Option (String × Nat)) (now : ℚ) :
    (∀ q, Effect.openGate q ∈
        frameEffects (processFrame cfg st (.ok boxes) ocr hashes now) ↔
      (cfg.suppressActuators = false ∧
        frameResult (processFrame cfg st (.ok boxes) ocr hashes now) =
          some (q, "allow") ∧
        (shouldEmit cfg.debounceSec st.lastSeen q now).1 = true)) ∧
    (∀ q r, Effect.alarmTrigger q r ∈
        frameEffects (processFrame cfg st (.ok boxes) ocr hashes now) ↔
      (cfg.suppressActuators = false ∧
        frameResult (processFrame cfg st (.ok boxes) ocr hashes now) =
          some (q, "deny") ∧
        (shouldEmit cfg.debounceSec st.lastSeen q now).1 = true ∧
        r = "deny_list")) ∧
    (∀ q dcs,
      frameResult (processFrame cfg st (.ok boxes) ocr hashes now) =
        some (q, dcs) →
      (shouldEmit cfg.debounceSec st.lastSeen q now).1 = true →
      ∃ cap g, Effect.sendPhoto cap g ∈
        frameEffects (processFrame cfg st (.ok boxes) ocr hashes now)) := by
  obtain ⟨hnone, hsome⟩ := scanBoxes_spec cfg ocr hashes now boxes st none
  rcases hscan : scanBoxes cfg ocr hashes now st none boxes with
    ⟨res, st1, effs, acc⟩
  rw [hscan] at hnone hsome
  rcases res with _ | ⟨q0, d0⟩
  · -- no readable candidate: loop effects are empty, the unreadable path
    -- emits at most a photo notification
    have heffs : effs = [] := hnone rfl
    subst heffs
    have key : frameResult (processFrame cfg st (.ok boxes) ocr hashes now) =
        none ∧
        ∀ e, e ∈ frameEffects
          (processFrame cfg st (.ok boxes) ocr hashes now) →
          ∃ cap, e = Effect.sendPhoto cap none := by
      rcases acc with _ | ⟨ub, uh⟩
      · have hpf : processFrame cfg st (.ok boxes) ocr hashes now =
            .ok (none, st1, []) := by
          simp only [processFrame, hscan]
        rw [hpf]
        exact ⟨rfl, by intro e he; simp [frameEffects] at he⟩
      · rcases hnu : cfg.notifyUnreadable with _ | _
        · have hpf : processFrame cfg st (.ok boxes) ocr hashes now =
              .ok (none, st1, []) := by
            simp only [processFrame, hscan, hnu]
          rw [hpf]
          exact ⟨rfl, by intro e he; simp [frameEffects] at he⟩
        · rcases hup : unreadablePath cfg st1 ub uh now with ⟨st2, effs2⟩
          have hpf : processFrame cfg st (.ok boxes) ocr hashes now =
              .ok (none, st2, [] ++ effs2) := by
            simp only [processFrame, hscan, hnu, hup]
          rw [hpf]
          refine ⟨rfl, ?_⟩
          intro e he
          simp only [frameEffects, List.nil_append] at he
          rcases unreadablePath_effects cfg st1 ub uh now with hemp | ⟨cap, heq⟩
          · have h2 : effs2 = [] := by
              rw [hup] at hemp
              exact hemp
            rw [h2] at he
            simp at he
          · have h2 : effs2 = [Effect.sendPhoto cap none] := by
              rw [hup] at heq
              exact heq
            rw [h2] at he
            rcases List.mem_singleton.mp he with rfl
            exact ⟨cap, rfl⟩
    obtain ⟨hres, hdone⟩ := key
    refine ⟨?_, ?_, ?_⟩
    · intro q
      constructor
      · intro hmem
        obtain ⟨cap, hc⟩ := hdone _ hmem
        exact absurd hc (by simp)
      · rintro ⟨-, hr, -⟩
        rw [hres] at hr
        exact absurd hr (by simp)
    · intro q r
      constructor
      · intro hmem
        obtain ⟨cap, hc⟩ := hdone _ hmem
        exact absurd hc (by simp)
      · rintro ⟨-, hr, -⟩
        rw [hres] at hr
        exact absurd hr (by simp)
    · intro q dcs hr
      rw [hres] at hr
      exact absurd hr (by simp)
  · -- a readable candidate ended the scan
    obtain ⟨hdec, dir, heffs⟩ := hsome q0 d0 rfl
    have heffs' : effs =
        if (shouldEmit cfg.debounceSec st.lastSeen q0 now).1 = true then
          act cfg q0 d0 dir
        else [] := heffs
    have hfe : frameEffects (processFrame cfg st (.ok boxes) ocr hashes now) =
        effs := by
      simp [processFrame, hscan, frameEffects]
    have hfr : frameResult (processFrame cfg st (.ok boxes) ocr hashes now) =
        some (q0, d0) := by
      simp [processFrame, hscan, frameResult]
    refine ⟨?_, ?_, ?_⟩
    · intro q
      rw [hfe, hfr, heffs']
      by_cases hem : (shouldEmit cfg.debounceSec st.lastSeen q0 now).1 = true
      · rw [if_pos hem, mem_act_openGate]
        constructor
        · rintro ⟨hsup, hall, rfl⟩
          exact ⟨hsup, by rw [hall], hem⟩
        · rintro ⟨hsup, hr, -⟩
          injection hr with hr
          injection hr with hq hd
          exact ⟨hsup, hd, hq.symm⟩
      · rw [if_neg hem]
        constructor
        · intro hmem
          simp at hmem
        · rintro ⟨-, hr, hq⟩
          injection hr with hr
          injection hr with hq' hd
          subst hq'
          exact absurd hq hem
    · intro q r
      rw [hfe, hfr, heffs']
      by_cases hem : (shouldEmit cfg.debounceSec st.lastSeen q0 now).1 = true
      · rw [if_pos hem, mem_act_alarm]
        constructor
        · rintro ⟨hsup, hden, rfl, rfl⟩
          exact ⟨hsup, by rw [hden], hem, rfl⟩
        · rintro ⟨hsup, hr, -, hrr⟩
          injection hr with hr
          injection hr with hq hd
          exact ⟨hsup, hd, hq.symm, hrr⟩
      · rw [if_neg hem]
        constructor
        · intro hmem
          simp at hmem
        · rintro ⟨-, hr, hq, -⟩
          injection hr with hr
          injection hr with hq' hd
          subst hq'
          exact absurd hq hem
    · intro q dcs hr hq
      rw [hfr] at hr
      injection hr with hr
      injection hr with hq' hd
      rw [← hq'] at hq
      rw [hfe, heffs', if_pos hq]
      exact act_sendPhoto_exists _ _ _ dir

/-- C2 (witness): candidate (300,400,160,50), OCR "ABC123",
allowed = {"ABC123"}: the gate opens. -/
theorem processFrame_actuation_witness :
    Effect.openGate "ABC123" ∈ frameEffects (processFrame
      ⟨⟨["ABC123"], [], [], []⟩, 15, false, 10, 6, 8, false, false, "y",
        false, 20, none, false, (0, 0, 0, 0), true⟩
      initState (.ok [((300 : Int), (400 : Int), (160 : Int), (50 : Int))])
      (fun _ => .ok "ABC123") (fun _ => none) 0) :=
  ((processFrame_actuation
      ⟨⟨["ABC123"], [], [], []⟩, 15, false, 10, 6, 8, false, false, "y",
        false, 20, none, false, (0, 0, 0, 0), true⟩
      initState [((300 : Int), (400 : Int), (160 : Int), (50 : Int))]
      (fun _ => .ok "ABC123") (fun _ => none) 0).1 "ABC123").mpr
    ⟨rfl, by decide, by decide⟩

/-- C6 (counterexample): with an unreadable first candidate and a readable
second one, the scan does not stop at the unreadable candidate: the later
readable candidate is still classified and returned. -/
theorem scan_not_stopped_by_unreadable :
    readText true
      (fun b => if b = ((0 : Int), (0 : Int), (10 : Int), (10 : Int)) then
        Except.ok "" else Except.ok "ABC123")
      ((0 : Int), (0 : Int), (10 : Int), (10 : Int)) = none ∧
    frameResult (processFrame
      ⟨⟨["ABC123"], [], [], []⟩, 15, false, 10, 6, 8, false, false, "y",
        false, 20, none, false, (0, 0, 0, 0), true⟩
      initState
      (.ok [((0 : Int), (0 : Int), (10 : Int), (10 : Int)),
        ((300 : Int), (400 : Int), (160 : Int), (50 : Int))])
      (fun b => if b = ((0 : Int), (0 : Int), (10 : Int), (10 : Int)) then
        Except.ok "" else Except.ok "ABC123")
      (fun _ => none) 0) = some ("ABC123", "allow") :=
  ⟨by decide, by decide⟩

/-- C6 (amended): the scan stops at the first readable in-ROI candidate:
everything after it is ignored.  (Unreadable candidates do not stop the
scan; only the first of them is remembered for the post-scan unreadable
notification, which runs only when no candidate was classified.) -/
theorem processFrame_stops_at_first_readable (cfg : PipelineConfig)
    (st : PipelineState) (ocr : Box → Except Unit String)
    (hashes : Box → Option (String × Nat)) (now : ℚ) (b : Box)
    (rest : List Box)
    (h1 : ¬ (cfg.roiEnabled ∧ ¬ pointInRoi cfg (boxCenter b)))
    (h2 : ¬ (pyStrip ((readText cfg.ocrEnabled ocr b).getD "") = "" ∨
      (pyStrip ((readText cfg.ocrEnabled ocr b).getD "")).length < 4)) :
    processFrame cfg st (.ok (b :: rest)) ocr hashes now =
      processFrame cfg st (.ok [b]) ocr hashes now := by
  simp only [processFrame]
  rw [scanBoxes_cons_readable cfg ocr hashes now st none b rest h1 h2,
    scanBoxes_cons_readable cfg ocr hashes now st none b [] h1 h2]

/-- C6 (witness): appending a second candidate after a readable first one
does not change the frame's outcome. -/
theorem processFrame_stops_at_first_readable_witness :
    processFrame
      ⟨⟨["ABC123"], [], [], []⟩, 15, false, 10, 6, 8, false, false, "y",
        false, 20, none, false, (0, 0, 0, 0), true⟩
      initState
      (.ok [((300 : Int), (400 : Int), (160 : Int), (50 : Int)),
        ((1 : Int), (1 : Int), (1 : Int), (1 : Int))])
      (fun _ => .ok "ABC123") (fun _ => none) 0 =
    processFrame
      ⟨⟨["ABC123"], [], [], []⟩, 15, false, 10, 6, 8, false, false, "y",
        false, 20, none, false, (0, 0, 0, 0), true⟩
      initState
      (.ok [((300 : Int), (400 : Int), (160 : Int), (50 : Int))])
      (fun _ => .ok "ABC123") (fun _ => none) 0 :=
  processFrame_stops_at_first_readable
    ⟨⟨["ABC123"], [], [], []⟩, 15, false, 10, 6, 8, false, false, "y",
      false, 20, none, false, (0, 0, 0, 0), true⟩
    initState (fun _ => .ok "ABC123") (fun _ => none) 0
    ((300 : Int), (400 : Int), (160 : Int), (50 : Int))
    [((1 : Int), (1 : Int), (1 : Int), (1 : Int))]
    (by decide) (by decide)

/-- C7 (counterexample): `process_frame` has no `try/except` around
`self.detector.detect(work)`, so a detector exception propagates out of
`process_frame` (in `main.run` it is caught only by the top-level fatal
handler, which stops the processing loop). -/
theorem processFrame_detector_error_propagates :
    processFrame
      ⟨⟨["ABC123"], [], [], []⟩, 15, false, 10, 6, 8, false, false, "y",
        false, 20, none, false, (0, 0, 0, 0), true⟩
      initState (.error ()) (fun _ => .ok "") (fun _ => none) 0 =
      .error () := rfl

/-- C7 (amended): once detection has succeeded, `process_frame` always
returns normally; an OCR adapter exception is absorbed by `read_text`
(yielding `None`) and the affected candidate is treated as unreadable, with
the scan continuing to the next candidate. -/
theorem processFrame_absorbs_ocr_failure (cfg : PipelineConfig)
    (st : PipelineState) (boxes : List Box)
    (ocr : Box → Except Unit String) (hashes : Box → Option (String × Nat))
    (now : ℚ) :
    isOk (processFrame cfg st (.ok boxes) ocr hashes now) = true ∧
    (∀ b, ocr b = .error () → readText true ocr b = none) ∧
    (∀ (st' : PipelineState) (acc : Option (Box × Option (String × Nat)))
        (b : Box) (rest : List Box),
      ocr b = .error () → cfg.ocrEnabled = true →
      ¬ (cfg.roiEnabled ∧ ¬ pointInRoi cfg (boxCenter b)) →
      scanBoxes cfg ocr hashes now st' acc (b :: rest) =
        scanBoxes cfg ocr hashes now
          (updateDirectionState cfg st' (boxCenter b))
          (match acc with
            | none => some (b, hashes b)
            | some a => some a) rest) := by
  refine ⟨?_, ?_, ?_⟩
  · rcases hscan : scanBoxes cfg ocr hashes now st none boxes with
      ⟨res, st1, effs, acc⟩
    rcases res with _ | pd
    · rcases acc with _ | ⟨ub, uh⟩
      · simp [processFrame, hscan, isOk]
      · rcases hnu : cfg.notifyUnreadable with _ | _
        · simp [processFrame, hscan, hnu, isOk]
        · rcases hup : unreadablePath cfg st1 ub uh now with ⟨st2, effs2⟩
          simp [processFrame, hscan, hnu, hup, isOk]
    · simp [processFrame, hscan, isOk]
  · intro b hb
    simp [readText, hb]
  · intro st' acc b rest hb hen hroi
    have h0 : readText cfg.ocrEnabled ocr b = none := by
      rw [hen]
      simp [readText, hb]
    have hplate : pyStrip ((readText cfg.ocrEnabled ocr b).getD "") = "" := by
      rw [h0]
      rfl
    exact scanBoxes_cons_unreadable cfg ocr hashes now st' acc b rest hroi
      (Or.inl hplate)

/-- C7 (witness): an OCR adapter that always raises still lets the frame
complete normally, and its reading is absent. -/
theorem processFrame_absorbs_ocr_failure_witness :
    isOk (processFrame
      ⟨⟨["ABC123"], [], [], []⟩, 15, false, 10, 6, 8, false, false, "y",
        false, 20, none, false, (0, 0, 0, 0), true⟩
      initState (.ok [((0 : Int), (0 : Int), (10 : Int), (10 : Int))])
      (fun _ => .error ()) (fun _ => none) 0) = true ∧
    readText true (fun _ => (.error () : Except Unit String))
      ((0 : Int), (0 : Int), (10 : Int), (10 : Int)) = none :=
  ⟨(processFrame_absorbs_ocr_failure
      ⟨⟨["ABC123"], [], [], []⟩, 15, false, 10, 6, 8, false, false, "y",
        false, 20, none, false, (0, 0, 0, 0), true⟩
      initState [((0 : Int), (0 : Int), (10 : Int), (10 : Int))]
      (fun _ => .error ()) (fun _ => none) 0).1,
   (processFrame_absorbs_ocr_failure
      ⟨⟨["ABC123"], [], [], []⟩, 15, false, 10, 6, 8, false, false, "y",
        false, 20, none, false, (0, 0, 0, 0), true⟩
      initState [((0 : Int), (0 : Int), (10 : Int), (10 : Int))]
      (fun _ => .error ()) (fun _ => none) 0).2.1
      ((0 : Int), (0 : Int), (10 : Int), (10 : Int)) rfl⟩

end PlateGate

